import Mathlib

/-!
Shallow embedding of the research-rag-pipeline repository.

Layers embedded here:
* Document ingestion — `pipeline/data_loader.py`, class `OptimizedDocumentLoader`.
* Vector store — `pipeline/vectorstore.py` is referenced by `app.py`,
  `build_index.py` and `pipeline/search.py` but its source file is not part of
  the repository snapshot; its operations are modelled from the specification.
* Search facade — `pipeline/search.py`, class `RAGSearch`.

External collaborators (format parsers, the embedding model, the LLM client)
are modelled as function parameters, mirroring the spec's consumed contracts.
-/

namespace RAGPipeline

/-- A document record: text plus a metadata mapping, as produced by the
format-specific parsers (`langchain` documents carry `page_content` and a
metadata dict; we model the mapping as an association list). -/
structure Document where
  text : String
  metadata : List (String × String)
deriving DecidableEq

/-- The parser classes named in `LOADER_MAP` of `data_loader.py`. -/
inductive LoaderClass where
  | pyPDFLoader
  | textLoader
  | csvLoader
  | unstructuredExcelLoader
  | docx2txtLoader
  | jsonLoader
deriving DecidableEq

/-- A filesystem item as seen by `_collect_files`: its path string, the
suffix `Path.suffix` reports for it (case preserved, leading dot included),
and whether it is a regular file. -/
structure PFile where
  name : String
  suffix : String
  isFile : Bool
deriving DecidableEq

/-- Log events emitted by `_load_single_file` via the module logger. -/
inductive LogEvent where
  | warningNoLoader
  | errorFailedLoad
  | debugLoaded
deriving DecidableEq

/-- Behaviour of the external parser classes: given a loader class and a file
path, either a list of parsed documents or a raised exception (modelled as
`Except`). -/
abbrev ParserRun := LoaderClass → String → Except String (List Document)

/-- Python's `str.lower()` applied to a suffix, character by character. -/
def lowerStr (s : String) : String := String.mk (s.data.map Char.toLower)

namespace OptimizedDocumentLoader

/-- The keys of `LOADER_MAP`, i.e. `set(self.LOADER_MAP.keys())` used by
`_collect_files` as `supported_extensions`. -/
def supported_extensions : List String :=
  [".pdf", ".txt", ".csv", ".xlsx", ".docx", ".json"]

/-- The extension-to-parser dictionary `LOADER_MAP` of `data_loader.py`. -/
def LOADER_MAP (ext : String) : Option LoaderClass :=
  if ext = ".pdf" then some LoaderClass.pyPDFLoader
  else if ext = ".txt" then some LoaderClass.textLoader
  else if ext = ".csv" then some LoaderClass.csvLoader
  else if ext = ".xlsx" then some LoaderClass.unstructuredExcelLoader
  else if ext = ".docx" then some LoaderClass.docx2txtLoader
  else if ext = ".json" then some LoaderClass.jsonLoader
  else none

/-- The per-item test of `_collect_files`:
`item.is_file() and item.suffix.lower() in supported_extensions`. -/
def is_collected (f : PFile) : Bool :=
  f.isFile && decide (lowerStr f.suffix ∈ supported_extensions)

/-- `_collect_files`: one traversal keeping exactly the supported files. -/
def collect_files (items : List PFile) : List PFile :=
  items.filter is_collected

/-- The `try/except` body of `_load_single_file` around `loader.load()`:
success yields the documents plus a debug log line, an exception is caught
and yields zero documents plus an error log line. -/
def run_loader (r : Except String (List Document)) :
    List Document × List LogEvent :=
  match r with
  | Except.ok docs => (docs, [LogEvent.debugLoaded])
  | Except.error _ => ([], [LogEvent.errorFailedLoad])

/-- `_load_single_file`: lowercase the suffix, look it up in `LOADER_MAP`;
no loader gives a warning and zero records, otherwise the chosen parser runs
under the try/except. Returns the records together with the log events. -/
def load_single_file (pr : ParserRun) (f : PFile) :
    List Document × List LogEvent :=
  match LOADER_MAP (lowerStr f.suffix) with
  | none => ([], [LogEvent.warningNoLoader])
  | some c => run_loader (pr c f.name)

/-- Whether the parser chosen for `f` (if any) succeeds on it. -/
def parse_ok (pr : ParserRun) (f : PFile) : Bool :=
  match LOADER_MAP (lowerStr f.suffix) with
  | none => true
  | some c =>
    match pr c f.name with
    | Except.ok _ => true
    | Except.error _ => false

/-- `load_all_parallel`: every collected file is submitted to the worker
pool and the documents are concatenated in completion order. The completion
order is nondeterministic; it is modelled as an arbitrary list which the
theorems constrain to be a permutation of `collect_files`. -/
def load_all_parallel (pr : ParserRun) (completionOrder : List PFile) :
    List Document :=
  (completionOrder.map (fun f => (load_single_file pr f).1)).flatten

/-- `load_lazy`: a sequential generator, yielding each collected file's
records in file-enumeration order. -/
def load_lazy (pr : ParserRun) (items : List PFile) : List Document :=
  ((collect_files items).map (fun f => (load_single_file pr f).1)).flatten

end OptimizedDocumentLoader

/-- Metadata record stored per indexed row, read back by the facade as a
mapping (an association list). -/
abbrev MetaMap := List (String × String)

namespace FaissVectorStore

/-- Modelled from the spec: the in-memory state of the vector store — the
similarity index (a list of embedding vectors, row identifier = position)
and the parallel ordered metadata sequence. `vectorstore.py` is not in the
repository snapshot. Embedding vectors are fixed-dimension numeric vectors;
they are modelled as integer lists. -/
structure StoreState where
  vectors : List (List Int)
  metadata : List MetaMap
deriving DecidableEq

/-- Modelled from the spec: the two persisted artifacts (`faiss.index` and
`metadata.pkl`), each possibly missing from the persistence directory. -/
structure Artifacts where
  indexFile : Option (List (List Int))
  metaFile : Option (List MetaMap)
deriving DecidableEq

/-- Modelled from the spec: squared L2 distance between two embedding
vectors, the nearest-neighbor metric of the index. -/
def sqDist (u v : List Int) : Int :=
  ((u.zip v).map (fun p => (p.1 - p.2) * (p.1 - p.2))).sum

/-- Modelled from the spec: the metadata record stored for a document —
it carries the record's text (the facade reads it back under the key
"text") plus the document's own metadata. -/
def metaOfDocument (d : Document) : MetaMap :=
  ("text", d.text) :: d.metadata

/-- Modelled from the spec: `build_from_documents` embeds every record's
text and constructs a fresh index over all embeddings, with metadata rows
in the same order. -/
def build_from_documents (embed : String → List Int) (docs : List Document) :
    StoreState :=
  { vectors := docs.map (fun d => embed d.text)
    metadata := docs.map metaOfDocument }

/-- Modelled from the spec: `save` writes index and metadata to the two
paired artifacts. -/
def save_artifacts (st : StoreState) : Artifacts :=
  { indexFile := some st.vectors, metaFile := some st.metadata }

/-- Modelled from the spec: `load()` reads both artifacts into memory;
it fails if either is missing or the row counts disagree. -/
def load (a : Artifacts) : Except String StoreState :=
  match a.indexFile, a.metaFile with
  | some v, some m =>
    if v.length = m.length then Except.ok { vectors := v, metadata := m }
    else Except.error "row count mismatch between index and metadata"
  | _, _ => Except.error "missing persisted artifact"

/-- A scored row: (row identifier, (metadata, distance)). -/
abbrev Row := Nat × MetaMap × Int

/-- Ordering on scored rows: by distance, ties broken by row identifier. -/
def rowLE (a b : Row) : Prop :=
  a.2.2 < b.2.2 ∨ (a.2.2 = b.2.2 ∧ a.1 ≤ b.1)

instance : DecidableRel rowLE := fun _ _ =>
  inferInstanceAs (Decidable (_ ∨ _))

instance : IsTotal Row rowLE where
  total a b := by
    rcases lt_trichotomy a.2.2 b.2.2 with h | h | h
    · exact Or.inl (Or.inl h)
    · rcases Nat.le_total a.1 b.1 with hi | hi
      · exact Or.inl (Or.inr ⟨h, hi⟩)
      · exact Or.inr (Or.inr ⟨h.symm, hi⟩)
    · exact Or.inr (Or.inl h)

instance : IsTrans Row rowLE where
  trans a b c hab hbc := by
    rcases hab with h1 | ⟨e1, i1⟩
    · rcases hbc with h2 | ⟨e2, _⟩
      · exact Or.inl (h1.trans h2)
      · exact Or.inl (e2 ▸ h1)
    · rcases hbc with h2 | ⟨e2, i2⟩
      · exact Or.inl (e1 ▸ h2)
      · exact Or.inr ⟨e1.trans e2, i1.trans i2⟩

/-- Every indexed row paired with its distance to the query embedding,
in row order. -/
def allRows (embed : String → List Int) (st : StoreState) (q : String) :
    List (MetaMap × Int) :=
  st.metadata.zip (st.vectors.map (sqDist (embed q)))

/-- Modelled from the spec: the nearest-neighbor search ranks all rows by
increasing distance, ties broken by row identifier (stable). -/
def sortedRows (embed : String → List Int) (st : StoreState) (q : String) :
    List Row :=
  List.insertionSort rowLE (allRows embed st q).enum

/-- Modelled from the spec: `query(text, top_k)` embeds the query text,
ranks rows by distance and returns the `top_k` closest as
(metadata, distance) pairs. -/
def query (embed : String → List Int) (st : StoreState) (q : String)
    (top_k : Nat) : List (MetaMap × Int) :=
  ((sortedRows embed st q).map (fun r => r.2)).take top_k

end FaissVectorStore

namespace RAGSearch

/-- A retrieval result as consumed by `search_and_summarize`: a record
carrying a metadata mapping (possibly absent, modelled as `none`) and a
distance. -/
structure QueryResult where
  metadata : Option MetaMap
  distance : Int
deriving DecidableEq

/-- The response object returned by the LLM client's `invoke`. -/
structure LLMResponse where
  content : String
deriving DecidableEq

/-- Python truthiness of `r["metadata"]`: an absent (None) or empty mapping
is falsy. -/
def metaTruthy : Option MetaMap → Bool
  | none => false
  | some m => !m.isEmpty

/-- `r["metadata"].get("text", "")`: a missing "text" key contributes the
empty string. (The `none` case is unreachable after the truthiness filter;
it is given the same default to keep the function total.) -/
def lookupText : Option MetaMap → String
  | none => ""
  | some m =>
    match m.lookup "text" with
    | some t => t
    | none => ""

/-- The list comprehension of `search_and_summarize`:
`[r["metadata"].get("text", "") for r in results if r["metadata"]]`. -/
def searchTexts (results : List QueryResult) : List String :=
  (results.filter (fun r => metaTruthy r.metadata)).map
    (fun r => lookupText r.metadata)

/-- Python's `"\n\n".join(texts)`. -/
def joinTexts : List String → String
  | [] => ""
  | [t] => t
  | t :: rest => t ++ "\n\n" ++ joinTexts rest

/-- The fixed no-results message of `search_and_summarize`. -/
def noResultsMessage : String := "No relevant documents found."

/-- The prompt template of `search_and_summarize`. -/
def promptOf (query context : String) : String :=
  "Summarize the following context for the query: \x27" ++ query ++
    "\x27\n\nContext:\n" ++ context ++ "\n\nSummary:"

/-- `RAGSearch.search_and_summarize`, parameterised by the vector store's
query operation and the LLM client's `invoke` (its external collaborators):
run the vector query, keep the texts of truthy-metadata results, join them
with blank lines; an empty joined context returns the fixed message,
otherwise the summarizer's response content is returned. -/
def search_and_summarize (vsquery : String → Nat → List QueryResult)
    (invoke : String → LLMResponse) (query : String) (top_k : Nat) : String :=
  let results := vsquery query top_k
  let context := joinTexts (searchTexts results)
  if context = "" then noResultsMessage
  else (invoke (promptOf query context)).content

/-- The two actions `RAGSearch.__init__` can take after checking the
persistence directory. -/
inductive InitAction where
  | buildIngest
  | loadExisting
deriving DecidableEq

/-- The load-or-build decision of `RAGSearch.__init__`:
`if not (os.path.exists(faiss_path) and os.path.exists(meta_path))`
then ingest the data directory and build, else load the existing store. -/
def init_action (faissIndexExists metadataExists : Bool) : InitAction :=
  if !(faissIndexExists && metadataExists) then InitAction.buildIngest
  else InitAction.loadExisting

end RAGSearch

open OptimizedDocumentLoader FaissVectorStore RAGSearch

/-- A concrete parser behaviour used to instantiate the theorems: every file
parses to one record except `bad.txt`, whose parser raises. -/
def prTest : ParserRun := fun _ name =>
  if name = "bad.txt" then Except.error "corrupt file"
  else Except.ok [{ text := name, metadata := [("source", name)] }]

/-- A concrete directory listing: one good text file, one corrupt text file,
one unsupported markdown file. -/
def itemsTest : List PFile :=
  [ { name := "good.txt", suffix := ".txt", isFile := true },
    { name := "bad.txt", suffix := ".txt", isFile := true },
    { name := "notes.md", suffix := ".md", isFile := true } ]

/-- A concrete LLM client returning a fixed summary. -/
def invokeTest : String → LLMResponse := fun _ => { content := "SUMMARY" }

/-- Retrieval results whose metadata mappings are non-empty but carry no
"text" key: every extracted text is the empty string. -/
def cexResults : List QueryResult :=
  [ { metadata := some [("source", "a.txt")], distance := 0 },
    { metadata := some [("source", "b.txt")], distance := 1 } ]

/-- A vector-store query stub returning `cexResults`. -/
def cexQuery : String → Nat → List QueryResult := fun _ _ => cexResults

/-- A concrete embedding for instantiating the store theorems. -/
def embedTest : String → List Int := fun s => [Int.ofNat s.length]

/-- A concrete two-row store state. -/
def storeTest : StoreState :=
  { vectors := [[2], [0]]
    metadata := [[("text", "b")], [("text", "a")]] }

/-! ## Helper lemmas -/

theorem mem_supported_iff (s : String) :
    s ∈ supported_extensions ↔ (LOADER_MAP s).isSome = true := by
  unfold supported_extensions LOADER_MAP
  constructor
  · intro h
    simp only [List.mem_cons, List.not_mem_nil, or_false] at h
    rcases h with h | h | h | h | h | h <;> subst h <;> simp
  · intro h
    split_ifs at h with h1 h2 h3 h4 h5 h6
    · subst h1; simp
    · subst h2; simp
    · subst h3; simp
    · subst h4; simp
    · subst h5; simp
    · subst h6; simp
    · simp at h

theorem load_single_file_of_not_ok (pr : ParserRun) (f : PFile)
    (h : parse_ok pr f = false) :
    load_single_file pr f = ([], [LogEvent.errorFailedLoad]) := by
  rw [parse_ok] at h
  rw [load_single_file]
  cases hm : LOADER_MAP (lowerStr f.suffix) with
  | none => simp [hm] at h
  | some c =>
    simp only [hm] at h ⊢
    cases hp : pr c f.name with
    | ok docs => simp [hp] at h
    | error e => simp [hp, run_loader]

theorem flatten_map_filter_parse_ok (pr : ParserRun) (l : List PFile) :
    ((l.filter (fun f => parse_ok pr f)).map
        (fun f => (load_single_file pr f).1)).flatten
      = (l.map (fun f => (load_single_file pr f).1)).flatten := by
  induction l with
  | nil => rfl
  | cons f rest ih =>
    cases hb : parse_ok pr f with
    | true => simp [List.filter_cons, hb, ih]
    | false =>
      have h1 := load_single_file_of_not_ok pr f hb
      simp [List.filter_cons, hb, ih, h1]

/-! ## Claims -/

/-- C2: `RAGSearch.__init__` triggers full ingestion plus index build exactly
when the two persisted artifacts do not both exist; when both exist it loads
the existing store without re-ingesting. -/
theorem claim_C2 (faissIndexExists metadataExists : Bool) :
    (init_action faissIndexExists metadataExists = InitAction.buildIngest
        ↔ ¬(faissIndexExists = true ∧ metadataExists = true))
  ∧ (init_action faissIndexExists metadataExists = InitAction.loadExisting
        ↔ (faissIndexExists = true ∧ metadataExists = true)) := by
  cases faissIndexExists <;> cases metadataExists <;> decide

/-- C3: for every directory and parser behaviour, ingestion completes and
returns records only from the files whose parser succeeds; each failing file
is caught, logged and contributes exactly zero records, for any completion
order of the worker pool. -/
theorem claim_C3 (pr : ParserRun) (items completionOrder : List PFile)
    (hperm : completionOrder.Perm (collect_files items)) :
    (∀ f : PFile, parse_ok pr f = false →
        (load_single_file pr f).1 = []
        ∧ LogEvent.errorFailedLoad ∈ (load_single_file pr f).2)
  ∧ (load_all_parallel pr completionOrder).Perm
      ((((collect_files items).filter (fun f => parse_ok pr f)).map
          (fun f => (load_single_file pr f).1)).flatten) := by
  constructor
  · intro f h
    rw [load_single_file_of_not_ok pr f h]
    exact ⟨rfl, List.mem_singleton_self _⟩
  · rw [flatten_map_filter_parse_ok]
    exact (hperm.map _).flatten

/-- C3 witness: a directory with one parseable file, one corrupt file and one
unsupported file; the run returns exactly the good file's records. -/
theorem claim_C3_witness :
    (load_all_parallel prTest (collect_files itemsTest)).Perm
      ((((collect_files itemsTest).filter (fun f => parse_ok prTest f)).map
          (fun f => (load_single_file prTest f).1)).flatten) :=
  (claim_C3 prTest itemsTest (collect_files itemsTest) (List.Perm.refl _)).2

/-- C4: each of the six supported extensions is routed to its designated
parser class; a supported file runs exactly that parser; a file with an
unsupported extension is skipped during collection and, when loaded
directly, yields zero records and a warning. -/
theorem claim_C4 (pr : ParserRun) :
    (LOADER_MAP ".pdf" = some LoaderClass.pyPDFLoader
      ∧ LOADER_MAP ".txt" = some LoaderClass.textLoader
      ∧ LOADER_MAP ".csv" = some LoaderClass.csvLoader
      ∧ LOADER_MAP ".xlsx" = some LoaderClass.unstructuredExcelLoader
      ∧ LOADER_MAP ".docx" = some LoaderClass.docx2txtLoader
      ∧ LOADER_MAP ".json" = some LoaderClass.jsonLoader)
  ∧ (∀ f : PFile, ∀ c : LoaderClass,
        LOADER_MAP (lowerStr f.suffix) = some c →
        load_single_file pr f = run_loader (pr c f.name))
  ∧ (∀ f : PFile, LOADER_MAP (lowerStr f.suffix) = none →
        is_collected f = false
        ∧ (∀ items : List PFile, f ∉ collect_files items)
        ∧ load_single_file pr f = ([], [LogEvent.warningNoLoader])) := by
  refine ⟨by decide, ?_, ?_⟩
  · intro f c h
    unfold load_single_file
    rw [h]
  · intro f h
    have hmem : lowerStr f.suffix ∉ supported_extensions := by
      intro hm
      have hs := (mem_supported_iff _).mp hm
      rw [h] at hs
      simp at hs
    have hcoll : is_collected f = false := by
      simp [is_collected, hmem]
    refine ⟨hcoll, ?_, ?_⟩
    · intro items hin
      rw [collect_files, List.mem_filter] at hin
      rw [hcoll] at hin
      exact absurd hin.2 (by simp)
    · unfold load_single_file
      rw [h]

/-- C4 witness: a `.md` file is not routed to any parser and yields zero
records plus a warning. -/
theorem claim_C4_witness :
    load_single_file prTest { name := "notes.md", suffix := ".md", isFile := true }
      = ([], [LogEvent.warningNoLoader]) :=
  ((claim_C4 prTest).2.2
    { name := "notes.md", suffix := ".md", isFile := true } (by decide)).2.2

/-- C8: the lazy ingestion path yields each collected file's records
sequentially in file-enumeration order, and its output is a permutation
(equal as a multiset) of the eager parallel path's output for any completion
order of the worker pool. -/
theorem claim_C8 (pr : ParserRun) (items completionOrder : List PFile)
    (hperm : completionOrder.Perm (collect_files items)) :
    load_lazy pr items
      = ((collect_files items).map (fun f => (load_single_file pr f).1)).flatten
  ∧ (load_all_parallel pr completionOrder : Multiset Document)
      = (load_lazy pr items : Multiset Document) := by
  refine ⟨rfl, ?_⟩
  rw [Multiset.coe_eq_coe]
  exact (hperm.map _).flatten

/-- C8 witness: the eager path collected in reverse completion order agrees
with the lazy path as a multiset on a concrete directory. -/
theorem claim_C8_witness :
    (load_all_parallel prTest ((collect_files itemsTest).reverse) : Multiset Document)
      = (load_lazy prTest itemsTest : Multiset Document) :=
  (claim_C8 prTest itemsTest ((collect_files itemsTest).reverse)
    (List.reverse_perm _)).2

/-- C10: collection and routing depend on the file's suffix only through its
lowercased form, so a file whose extension differs from a supported one only
in letter case (`.PDF`) is collected and routed to the same parser as the
lowercase form. -/
theorem claim_C10 (pr : ParserRun) :
    (∀ f g : PFile, f.name = g.name → f.isFile = g.isFile →
        lowerStr f.suffix = lowerStr g.suffix →
        is_collected f = is_collected g
        ∧ load_single_file pr f = load_single_file pr g)
  ∧ lowerStr ".PDF" = ".pdf"
  ∧ LOADER_MAP (lowerStr ".PDF") = some LoaderClass.pyPDFLoader
  ∧ is_collected { name := "paper.PDF", suffix := ".PDF", isFile := true } = true := by
  refine ⟨?_, by decide, by decide, by decide⟩
  intro f g hn hfile hs
  constructor
  · rw [is_collected, is_collected, hfile, hs]
  · rw [load_single_file, load_single_file, hs, hn]

/-- C10 witness: `paper.PDF` is collected and loaded exactly like its
lowercase-suffix twin. -/
theorem claim_C10_witness :
    is_collected { name := "paper.PDF", suffix := ".PDF", isFile := true }
      = is_collected { name := "paper.PDF", suffix := ".pdf", isFile := true }
    ∧ load_single_file prTest { name := "paper.PDF", suffix := ".PDF", isFile := true }
      = load_single_file prTest { name := "paper.PDF", suffix := ".pdf", isFile := true } :=
  (claim_C10 prTest).1
    { name := "paper.PDF", suffix := ".PDF", isFile := true }
    { name := "paper.PDF", suffix := ".pdf", isFile := true }
    rfl rfl (by decide)

theorem joinTexts_cons_cons (t a : String) (rest : List String) :
    joinTexts (t :: a :: rest) = t ++ "\n\n" ++ joinTexts (a :: rest) := rfl

theorem joinTexts_eq_empty_iff (l : List String) :
    joinTexts l = "" ↔ (l = [] ∨ l = [""]) := by
  match l with
  | [] => simp [joinTexts]
  | [t] => simp [joinTexts]
  | t :: a :: rest =>
    have hne : joinTexts (t :: a :: rest) ≠ "" := by
      intro h
      have hl := congrArg String.length h
      rw [joinTexts_cons_cons] at hl
      simp only [String.length_append] at hl
      have h2 : ("\n\n" : String).length = 2 := rfl
      have h0 : ("" : String).length = 0 := rfl
      omega
    simp [hne]

theorem search_and_summarize_of_empty (vsquery : String → Nat → List QueryResult)
    (invoke : String → LLMResponse) (q : String) (k : Nat)
    (h : joinTexts (searchTexts (vsquery q k)) = "") :
    search_and_summarize vsquery invoke q k = noResultsMessage := by
  rw [search_and_summarize]
  simp only [h, if_pos]

theorem search_and_summarize_of_ne_empty (vsquery : String → Nat → List QueryResult)
    (invoke : String → LLMResponse) (q : String) (k : Nat)
    (h : joinTexts (searchTexts (vsquery q k)) ≠ "") :
    search_and_summarize vsquery invoke q k
      = (invoke (promptOf q (joinTexts (searchTexts (vsquery q k))))).content := by
  rw [search_and_summarize]
  simp only [h, if_neg, ite_false]

/-- C1 counterexample: two retrieved results whose metadata mappings are
non-empty but carry no "text" key — retrieval yields no non-empty texts, yet
the facade does not return the fixed no-results message; it invokes the
summarizer and returns its response. -/
theorem claim_C1_counterexample :
    searchTexts cexResults = ["", ""]
    ∧ search_and_summarize cexQuery invokeTest "q" 2 = "SUMMARY"
    ∧ "SUMMARY" ≠ noResultsMessage := ⟨by decide, by decide, by decide⟩

/-- C1 (amended): `search_and_summarize` returns the fixed no-results
message when the blank-line-joined context of the surviving texts is empty
(no surviving texts, or exactly one surviving empty text), and otherwise
returns the external summarization call's response text verbatim, never the
raw concatenated context. -/
theorem claim_C1 (vsquery : String → Nat → List QueryResult)
    (invoke : String → LLMResponse) (q : String) (k : Nat) :
    (joinTexts (searchTexts (vsquery q k)) = "" →
        search_and_summarize vsquery invoke q k = noResultsMessage)
  ∧ (joinTexts (searchTexts (vsquery q k)) ≠ "" →
        search_and_summarize vsquery invoke q k
          = (invoke (promptOf q (joinTexts (searchTexts (vsquery q k))))).content) :=
  ⟨search_and_summarize_of_empty vsquery invoke q k,
   search_and_summarize_of_ne_empty vsquery invoke q k⟩

/-- C1 witness: empty retrieval returns the fixed message; a single result
with text "hello" returns the summarizer's response. -/
theorem claim_C1_witness :
    search_and_summarize (fun _ _ => []) invokeTest "q" 3 = noResultsMessage
    ∧ search_and_summarize
        (fun _ _ => [{ metadata := some [("text", "hello")], distance := 0 }])
        invokeTest "q" 3
      = (invokeTest (promptOf "q" "hello")).content := by
  constructor
  · exact (claim_C1 (fun _ _ => []) invokeTest "q" 3).1 (by decide)
  · exact (claim_C1
      (fun _ _ => [{ metadata := some [("text", "hello")], distance := 0 }])
      invokeTest "q" 3).2 (by decide)

/-- C9: results with falsy (absent or empty) metadata are discarded, a
missing "text" key contributes the empty string, the joined context is empty
exactly when the surviving text list is empty or a single empty string — in
which case the fixed message is returned — and two or more surviving
all-empty texts still produce a non-empty joined context, so the summarizer
is invoked. -/
theorem claim_C9 (vsquery : String → Nat → List QueryResult)
    (invoke : String → LLMResponse) (q : String) (k : Nat) :
    (searchTexts (vsquery q k)
        = ((vsquery q k).filter (fun r => metaTruthy r.metadata)).map
            (fun r => lookupText r.metadata))
  ∧ (metaTruthy none = false ∧ metaTruthy (some []) = false
      ∧ ∀ m : MetaMap, m.lookup "text" = none → lookupText (some m) = "")
  ∧ (joinTexts (searchTexts (vsquery q k)) = ""
        ↔ (searchTexts (vsquery q k) = [] ∨ searchTexts (vsquery q k) = [""]))
  ∧ (joinTexts (searchTexts (vsquery q k)) = "" →
        search_and_summarize vsquery invoke q k = noResultsMessage)
  ∧ (2 ≤ (searchTexts (vsquery q k)).length →
        search_and_summarize vsquery invoke q k
          = (invoke (promptOf q (joinTexts (searchTexts (vsquery q k))))).content) := by
  refine ⟨rfl, ⟨rfl, rfl, ?_⟩, joinTexts_eq_empty_iff _,
    search_and_summarize_of_empty vsquery invoke q k, ?_⟩
  · intro m hm
    rw [lookupText, hm]
  · intro hlen
    refine search_and_summarize_of_ne_empty vsquery invoke q k ?_
    intro hempty
    rcases (joinTexts_eq_empty_iff _).mp hempty with h | h <;>
      rw [h] at hlen <;> simp at hlen

/-- C9 witness: the two all-empty-text results of `cexResults` still invoke
the summarizer on the context of two blank lines. -/
theorem claim_C9_witness :
    search_and_summarize cexQuery invokeTest "q" 2
      = (invokeTest (promptOf "q" (joinTexts (searchTexts (cexQuery "q" 2))))).content :=
  (claim_C9 cexQuery invokeTest "q" 2).2.2.2.2 (by decide)

theorem allRows_length (embed : String → List Int) (st : StoreState)
    (q : String) (hwf : st.vectors.length = st.metadata.length) :
    (allRows embed st q).length = st.metadata.length := by
  rw [allRows, List.length_zip, List.length_map, hwf, min_self]

theorem sortedRows_length (embed : String → List Int) (st : StoreState)
    (q : String) :
    (sortedRows embed st q).length = (allRows embed st q).length := by
  rw [sortedRows, (List.perm_insertionSort rowLE _).length_eq, List.enum_length]

/-- C5: after a build or load, `query(q, top_k=k)` returns at most `k`
results as (metadata, distance) pairs; the ranking is sorted by distance
with ties broken by row identifier, so the returned pairs have
non-decreasing distance; and when `k` is at least the number of indexed
rows, the result is exactly all indexed rows. -/
theorem claim_C5 (embed : String → List Int) (st : StoreState)
    (hwf : st.vectors.length = st.metadata.length) (q : String) (k : Nat) :
    (query embed st q k).length = min k st.metadata.length
  ∧ List.Sorted rowLE (sortedRows embed st q)
  ∧ List.Pairwise (fun a b : MetaMap × Int => a.2 ≤ b.2) (query embed st q k)
  ∧ (st.metadata.length ≤ k →
        (query embed st q k).Perm (allRows embed st q)) := by
  have hsorted : List.Sorted rowLE (sortedRows embed st q) :=
    List.sorted_insertionSort rowLE _
  have hmaplen : ((sortedRows embed st q).map (fun r => r.2)).length
      = st.metadata.length := by
    rw [List.length_map, sortedRows_length, allRows_length embed st q hwf]
  refine ⟨?_, hsorted, ?_, ?_⟩
  · rw [query, List.length_take, hmaplen]
  · have hpw : List.Pairwise (fun a b : MetaMap × Int => a.2 ≤ b.2)
        ((sortedRows embed st q).map (fun r => r.2)) := by
      refine List.Pairwise.map _ ?_ hsorted
      intro a b hab
      rcases hab with h | ⟨h, _⟩
      · exact le_of_lt h
      · exact le_of_eq h
    exact List.Pairwise.sublist (List.take_sublist _ _) hpw
  · intro hk
    rw [query, List.take_of_length_le (by rw [hmaplen]; exact hk)]
    have hp := (List.perm_insertionSort rowLE (allRows embed st q).enum).map
      (fun r : Row => r.2)
    have heq : (allRows embed st q).enum.map (fun r : Row => r.2)
        = allRows embed st q := List.enum_map_snd _
    rw [heq] at hp
    exact hp

/-- C5 witness: a two-row store queried with `top_k = 5` returns both rows,
distance-sorted. -/
theorem claim_C5_witness :
    (query embedTest storeTest "q" 5).Perm (allRows embedTest storeTest "q") :=
  (claim_C5 embedTest storeTest rfl "q" 5).2.2.2 (by decide)

/-- C6: building a store, persisting it and loading it back yields a state
on which every query returns results identical to those of the freshly
built in-memory store. -/
theorem claim_C6 (embed : String → List Int) (docs : List Document) :
    ∃ st : StoreState,
      load (save_artifacts (build_from_documents embed docs)) = Except.ok st
      ∧ ∀ q : String, ∀ k : Nat,
          query embed st q k = query embed (build_from_documents embed docs) q k := by
  refine ⟨build_from_documents embed docs, ?_, fun q k => rfl⟩
  simp [load, save_artifacts, build_from_documents]

/-- C7: `load()` succeeds exactly when both artifacts are present and their
row counts agree; on success the store state holds exactly the two
artifacts' contents. -/
theorem claim_C7 (a : Artifacts) :
    ((∃ st : StoreState, load a = Except.ok st)
        ↔ ∃ v : List (List Int), ∃ m : List MetaMap,
            a.indexFile = some v ∧ a.metaFile = some m ∧ v.length = m.length)
  ∧ (∀ v : List (List Int), ∀ m : List MetaMap,
        a.indexFile = some v → a.metaFile = some m → v.length = m.length →
        load a = Except.ok { vectors := v, metadata := m }) := by
  obtain ⟨iF, mF⟩ := a
  constructor
  · constructor
    · rintro ⟨st, hst⟩
      cases iF with
      | none => simp [load] at hst
      | some v =>
        cases mF with
        | none => simp [load] at hst
        | some m =>
          by_cases h : v.length = m.length
          · exact ⟨v, m, rfl, rfl, h⟩
          · simp [load, h] at hst
    · rintro ⟨v, m, hv, hm, hlen⟩
      simp only at hv hm
      subst hv; subst hm
      exact ⟨{ vectors := v, metadata := m }, by simp [load, hlen]⟩
  · intro v m hv hm hlen
    simp only at hv hm
    subst hv; subst hm
    simp [load, hlen]

/-- C7 witness: a consistent pair of one-row artifacts loads successfully
into memory. -/
theorem claim_C7_witness :
    load { indexFile := some [[1]], metaFile := some [[("text", "a")]] }
      = Except.ok { vectors := [[1]], metadata := [[("text", "a")]] } :=
  (claim_C7 { indexFile := some [[1]], metaFile := some [[("text", "a")]] }).2
    [[1]] [[("text", "a")]] rfl rfl rfl

end RAGPipeline
